import Mathlib

/-!
Shallow embedding of `env_viewer.py` (class `Game2048Viewer`), a matplotlib
viewer for the 2048 environment.  Pure data is translated to Lean functions;
the matplotlib side effects (patches, text, figure registry, saved files) are
made explicit as data recorded in result structures.  Dictionary lookups that
can raise `KeyError` / `IndexError` in Python are translated to `Option` /
`Except`.

Every geometric coordinate appearing in the source is a half-integer
(`col - 0.5`, `-0.5 + k`, unit widths, ...), so coordinates are recorded
exactly in `ℤ` as twice their value ("half-units"): the Python value `x`
is stored as `2 * x`.  This keeps all definitions kernel-computable.
-/

/-- Numeric part of the `COLORS` class attribute: the palette dictionary
restricted to its integer keys (0, 2, 4, ..., 16384).  A missing key models a
Python `KeyError`. -/
def COLORS (v : ℕ) : Option String :=
  if v = 0 then some "#ccc0b3"
  else if v = 2 then some "#eee4da"
  else if v = 4 then some "#ede0c8"
  else if v = 8 then some "#f59563"
  else if v = 16 then some "#f59563"
  else if v = 32 then some "#f67c5f"
  else if v = 64 then some "#f65e3b"
  else if v = 128 then some "#edcf72"
  else if v = 256 then some "#edcc61"
  else if v = 512 then some "#edc651"
  else if v = 1024 then some "#eec744"
  else if v = 2048 then some "#ecc22e"
  else if v = 4096 then some "#b784ab"
  else if v = 8192 then some "#b784ab"
  else if v = 16384 then some "#aa60a6"
  else none

/-- `COLORS["other"]`, the overflow fallback color. -/
def COLORS_other : String := "#f8251d"

/-- `COLORS["light_text"]`. -/
def COLORS_light_text : String := "#f9f6f2"

/-- `COLORS["dark_text"]`. -/
def COLORS_dark_text : String := "#766d64"

/-- `COLORS["edge"]`. -/
def COLORS_edge : String := "#bbada0"

/-- `COLORS["bg"]`. -/
def COLORS_bg : String := "#faf8ef"

/-- The integer keys enumerated in the `COLORS` dictionary. -/
def enumKeys : List ℕ :=
  [0, 2, 4, 8, 16, 32, 64, 128, 256, 512, 1024, 2048, 4096, 8192, 16384]

/-- A game state as consumed by the viewer: `state.board` is a square matrix
of tile values indexed `board[row, col]`, `state.score` the numeric score
(already in integer form, matching the `int(state.score)` conversion). -/
structure GameState where
  board : ℕ → ℕ → ℕ
  score : ℤ

/-- The title string `f"2048    Score: {int(state.score)}"`. -/
def titleFor (score : ℤ) : String := "2048    Score: " ++ toString score

/-- The fill color chosen for a tile patch (lines 152-160 of `render_tile`):
`COLORS[int(tile_value)]` when `tile_value <= 16384` (a `KeyError`, i.e.
`none`, when the value is not a dictionary key), else `COLORS["other"]`. -/
def tileFillColor (v : ℕ) : Option String :=
  if v ≤ 16384 then COLORS v else some COLORS_other

/-- The label color and font size chosen by the `if/elif` chain on lines
163-174 of `render_tile`. -/
def tile_label_style (v : ℕ) : String × ℕ :=
  if v = 2 ∨ v = 4 then (COLORS_dark_text, 30)
  else if v < 1024 then (COLORS_light_text, 30)
  else if 1024 ≤ v ∧ v < 16384 then (COLORS_light_text, 25)
  else (COLORS_light_text, 20)

/-- A `plt.Rectangle([col - 0.5, row - 0.5], 1, 1, color=...)` patch.
Coordinates and extents are in half-units (twice the Python value). -/
structure RectCmd where
  x : ℤ
  y : ℤ
  w : ℤ
  h : ℤ
  color : String
deriving DecidableEq, Repr

/-- An `ax.text(col, row, str(tile_value), ...)` call. -/
structure TextCmd where
  x : ℕ
  y : ℕ
  content : String
  color : String
  ha : String
  va : String
  size : ℕ
  weight : String
deriving DecidableEq, Repr

/-- `render_tile(tile_value, ax, row, col)`: adds one unit-square patch at
`(col - 0.5, row - 0.5)` (in half-units: `(2 * col - 1, 2 * row - 1)`, width
and height `2`) filled with the palette color (or the overflow color when the
value exceeds 16384), then draws the centered bold label `str(tile_value)`
unless the value is 0.  `none` models the `KeyError` raised by
`COLORS[int(tile_value)]` when the value is not a palette key and is
`<= 16384`. -/
def render_tile (v row col : ℕ) : Option (RectCmd × List TextCmd) :=
  match tileFillColor v with
  | none => none
  | some fill =>
    let style := tile_label_style v
    let rect : RectCmd := ⟨2 * (col : ℤ) - 1, 2 * (row : ℤ) - 1, 2, 2, fill⟩
    let texts : List TextCmd :=
      if v ≠ 0 then [⟨col, row, toString v, style.1, "center", "center", style.2, "bold"⟩]
      else []
    some (rect, texts)

/-- `numpy`-style `arange(start, stop, step)` for a positive step, with all
three arguments and the produced values in half-units: the values
`start + k * step` for `0 ≤ k < ceil((stop - start) / step)`. -/
def arangeHalf (start stop step : ℤ) : List ℤ :=
  (List.range ((stop - start + step - 1) / step).toNat).map
    (fun k => start + k * step)

/-- The tick positions `jnp.arange(-0.5, 4 - 1, 1)` set by `draw_board`
(note the literal `4`, independent of the configured board size), in
half-units: `arange(-1, 2 * (4 - 1), 2)`. -/
def boardTicks : List ℤ := arangeHalf (-1) (2 * (4 - 1)) 2

/-- The `(row, col)` pairs visited by the nested `for` loops of `draw_board`
(`row` the outer loop, `col` the inner loop), in iteration order. -/
def boardCells (n : ℕ) : List (ℕ × ℕ) :=
  (List.range n).flatMap fun row =>
    (List.range n).map fun col => (row, col)

/-- The `render_tile` invocations performed by the loop body of `draw_board`:
the loop walks the cells in order and calls
`render_tile(tile_value=board[row, col], ax=ax, row=row, col=col)` on each.
The first component lists the `(tile_value, row, col)` argument triples of
the invocations actually made, in call order; the second component is `true`
when the last of them raised a `KeyError` (aborting the loop, so the
remaining cells are never visited and the exception propagates). -/
def renderTileLoop (st : GameState) : List (ℕ × ℕ) → List (ℕ × ℕ × ℕ) × Bool
  | [] => ([], false)
  | p :: rest =>
    match render_tile (st.board p.1 p.2) p.1 p.2 with
    | none => ([(st.board p.1 p.2, p.1, p.2)], true)
    | some _ =>
      let res := renderTileLoop st rest
      ((st.board p.1 p.2, p.1, p.2) :: res.1, res.2)

/-- The effects of one `draw_board(ax, state)` call, recorded in the order the
source performs them: `ax.clear()`, `ax.set_xticks` / `ax.set_yticks` with the
`boardTicks` positions, `ax.tick_params(...)` hiding all tick marks and
labels, then the `render_tile` loop (`tileCalls` lists the invocations
actually made, `raised` is `true` when one of them raised a `KeyError`), and
finally — only when the loop completed without raising — `ax.imshow(board)`
and `ax.grid(color=COLORS["edge"], linestyle="-", linewidth=7)`.  When
`raised` is `true` the exception propagates to the caller of `draw_board`. -/
structure BoardDrawing where
  cleared : Bool
  xticks : List ℤ
  yticks : List ℤ
  ticksHidden : Bool
  tileCalls : List (ℕ × ℕ × ℕ)
  raised : Bool
  imshowBoard : Bool
  grid : Option (String × ℕ)
deriving DecidableEq, Repr

/-- `draw_board(ax, state)` for a viewer with `self._board_size = n`. -/
def draw_board (n : ℕ) (st : GameState) : BoardDrawing :=
  let loop := renderTileLoop st (boardCells n)
  { cleared := true
    xticks := boardTicks
    yticks := boardTicks
    ticksHidden := true
    tileCalls := loop.1
    raised := loop.2
    imshowBoard := !loop.2
    grid := if loop.2 then none else some (COLORS_edge, 7) }

/-- Modelled from the spec: the cell boundaries of a square board of side
`n` whose cells are unit squares centered at integer coordinates
`0, ..., n - 1`, i.e. the positions `-0.5, 0.5, ..., n - 0.5` (in half-units:
`2 * k - 1` for `0 ≤ k ≤ n`).  The spec claims `draw_board` sets the gridline
tick positions to these. -/
def cellBoundaries (n : ℕ) : List ℤ :=
  (List.range (n + 1)).map (fun k => 2 * (k : ℤ) - 1)

/-- A matplotlib figure as configured by `get_fig_ax`: creation keyword
arguments (`figsize` in inches), whether `plt.axis("off")` was applied,
whether `fig.show()` was called at creation, and the handles of its axes
(`fig.add_subplot()` gives the new figure a single axes, handle `0`). -/
structure Figure where
  figsize : ℕ × ℕ
  facecolor : String
  axisOff : Bool
  shown : Bool
  axes : List ℕ
deriving DecidableEq, Repr

/-- The process-wide `plt` figure registry, keyed by figure name. -/
abbrev Registry := List (String × Figure)

/-- `plt.fignum_exists(name)` / `plt.figure(name)` lookup. -/
def lookupFig (name : String) : Registry → Option Figure
  | [] => none
  | (n, f) :: rest => if n = name then some f else lookupFig name rest

/-- `get_fig_ax()`: if a figure named `self._name` exists, return it together
with `fig.get_axes()[0]` (the `none` outcome models the `IndexError` when the
registered figure has no axes); otherwise create a figure with
`figsize=(6.0, 6.0)`, `facecolor=COLORS["bg"]`, apply `plt.axis("off")`, call
`fig.show()` when not interactive, add one subplot and return it.  The second
component is the registry after the call. -/
def get_fig_ax (reg : Registry) (name : String) (interactive : Bool) :
    Option (Figure × ℕ) × Registry :=
  match lookupFig name reg with
  | some fig =>
    match fig.axes with
    | [] => (none, reg)
    | a :: _ => (some (fig, a), reg)
  | none =>
    let fig : Figure :=
      { figsize := (6, 6)
        facecolor := COLORS_bg
        axisOff := true
        shown := !interactive
        axes := [0] }
    (some (fig, 0), (name, fig) :: reg)

/-- The observable effects of one `render(state, save, path)` call. -/
structure RenderResult where
  fig : Figure
  axUsed : ℕ
  registry : Registry
  title : String
  boardCmds : BoardDrawing
  savedFiles : List String
  eventLoopSeconds : ℕ
deriving Repr

/-- `render(state, save, path)` for a viewer with board size `n` and window
name `name`: acquire the figure and axes, set the score title, draw the
board, save the figure to `path` when `save` is set, then flush the display
(`_display_human`: a 2-second event-loop pump when not interactive).
`Except` propagates the `IndexError` that `get_fig_ax` can raise and the
`KeyError` that `draw_board` can raise: in the latter case `fig.savefig` and
the display flush are never reached, so no file is written even when `save`
is set (the title had been set and part of the board drawn on the shared
axes before the raise; the error result records no further effects). -/
def render (n : ℕ) (name : String) (interactive : Bool) (reg : Registry)
    (st : GameState) (save : Bool) (path : String) :
    Except Unit RenderResult :=
  match get_fig_ax reg name interactive with
  | (none, _) => .error ()
  | (some (fig, ax), reg') =>
    let d := draw_board n st
    if d.raised then .error ()
    else
      .ok { fig := fig
            axUsed := ax
            registry := reg'
            title := titleFor st.score
            boardCmds := d
            savedFiles := if save then [path] else []
            eventLoopSeconds := if interactive then 0 else 2 }

/-- The effects of one run of the `animate_state(state_index)` callback
defined inside `animate`: look up `states[state_index]` (an out-of-range
index raises `IndexError`), redraw the board, and — only if the redraw did
not raise — set the title from that state's score.  A `KeyError` inside
`draw_board` aborts the callback before `fig.suptitle`, so the title is
never set for that frame. -/
def animate_state (n : ℕ) (states : List GameState) (state_index : ℕ) :
    Except Unit (BoardDrawing × String) :=
  match states[state_index]? with
  | none => .error ()
  | some st =>
    let d := draw_board n st
    if d.raised then .error () else .ok (d, titleFor st.score)

/-- The `matplotlib.animation.FuncAnimation` object built by `animate`:
frame count `len(states)`, the `interval` and `blit` parameters, and the
per-frame effects of the `animate_state` callback. -/
structure FuncAnimation where
  frames : ℕ
  interval : ℕ
  blit : Bool
  frameEffects : ℕ → Except Unit (BoardDrawing × String)

/-- The observable effects of one `animate(states, ...)` call that returns. -/
structure AnimateResult where
  fig : Figure
  axUsed : ℕ
  registry : Registry
  initialTitle : String
  animation : FuncAnimation
  storedAnimation : Option FuncAnimation
  savedFiles : List (String × FuncAnimation)
  returned : FuncAnimation

/-- `animate(states, interval, blit, save, path)` for a viewer with board
size `n`, window name `name` and previously stored animation `prev`
(`self._animation` before the call): acquire the figure and axes, set the
initial title, build the `FuncAnimation` driven by `animate_state`, store it
in `self._animation` (overwriting `prev`), then, when `save` is set, run
`self._animation.save(path)` — which replays every frame and therefore
raises if any state's board redraw raises, in which case the file is not
produced and the function never returns — and finally return the stored
handle.  The `.error` payload is the value of `self._animation` at the
moment the exception propagates: still `prev` when `get_fig_ax` raised, the
newly stored animation when `save` raised. -/
def animate (n : ℕ) (name : String) (interactive : Bool) (reg : Registry)
    (prev : Option FuncAnimation) (states : List GameState) (interval : ℕ)
    (blit : Bool) (save : Bool) (path : String) :
    Except (Option FuncAnimation) AnimateResult :=
  match get_fig_ax reg name interactive with
  | (none, _) => .error prev
  | (some (fig, ax), reg') =>
    let anim : FuncAnimation :=
      { frames := states.length
        interval := interval
        blit := blit
        frameEffects := animate_state n states }
    if save then
      if states.all (fun st => !(draw_board n st).raised) then
        .ok { fig := fig
              axUsed := ax
              registry := reg'
              initialTitle := "2048    Score: 0"
              animation := anim
              storedAnimation := some anim
              savedFiles := [(path, anim)]
              returned := anim }
      else .error (some anim)
    else
      .ok { fig := fig
            axUsed := ax
            registry := reg'
            initialTitle := "2048    Score: 0"
            animation := anim
            storedAnimation := some anim
            savedFiles := []
            returned := anim }

example : boardTicks = [-1, 1, 3, 5] := by decide
example : render_tile 2 0 1 =
    some (⟨1, -1, 2, 2, "#eee4da"⟩,
      [⟨1, 0, "2", COLORS_dark_text, "center", "center", 30, "bold"⟩]) := by decide
example : render_tile 6 0 0 = none := by decide
example : render_tile 32768 0 0 =
    some (⟨-1, -1, 2, 2, COLORS_other⟩,
      [⟨0, 0, "32768", COLORS_light_text, "center", "center", 20, "bold"⟩]) := by decide
example : (draw_board 2 ⟨fun r c => 2 * (r + c), 7⟩).tileCalls =
    [(0, 0, 0), (2, 0, 1), (2, 1, 0), (4, 1, 1)] ∧
    (draw_board 2 ⟨fun r c => 2 * (r + c), 7⟩).raised = false := by decide
example : (draw_board 2 ⟨fun r c => 2 * r + c, 7⟩).tileCalls = [(0, 0, 0), (1, 0, 1)] ∧
    (draw_board 2 ⟨fun r c => 2 * r + c, 7⟩).raised = true := by decide
example : titleFor 4 = "2048    Score: 4" := by decide

/-- A successful palette lookup makes `render_tile` succeed. -/
theorem render_tile_some (v row col : ℕ) (h : (tileFillColor v).isSome = true) :
    ∃ q, render_tile v row col = some q := by
  obtain ⟨fill, hfill⟩ := Option.isSome_iff_exists.mp h
  refine ⟨(⟨2 * (col : ℤ) - 1, 2 * (row : ℤ) - 1, 2, 2, fill⟩,
    if v ≠ 0 then [⟨col, row, toString v, (tile_label_style v).1, "center", "center",
      (tile_label_style v).2, "bold"⟩] else []), ?_⟩
  simp [render_tile, hfill]

/-- When every visited cell's palette lookup succeeds, the render-tile loop
completes without raising, invoking `render_tile` on each cell in order. -/
theorem renderTileLoop_ok (st : GameState) :
    ∀ cells : List (ℕ × ℕ),
      (∀ p ∈ cells, (tileFillColor (st.board p.1 p.2)).isSome = true) →
      renderTileLoop st cells
        = (cells.map fun p => (st.board p.1 p.2, p.1, p.2), false) := by
  intro cells
  induction cells with
  | nil => intro _; rfl
  | cons p rest ih =>
    intro h
    obtain ⟨q, hq⟩ := render_tile_some (st.board p.1 p.2) p.1 p.2
      (h p (List.mem_cons_self p rest))
    simp only [renderTileLoop, hq, List.map_cons]
    rw [ih (fun x hx => h x (List.mem_cons_of_mem p hx))]

/-- The nested `for` loops of `draw_board` enumerate the product of the row
and column ranges. -/
theorem boardCells_eq_product (n : ℕ) :
    boardCells n = (List.range n) ×ˢ (List.range n) := rfl

/-- A board whose in-range values all resolve in the palette is valid on
every visited cell. -/
theorem boardCells_valid (n : ℕ) (st : GameState)
    (hvalid : ∀ r, r < n → ∀ c, c < n → (tileFillColor (st.board r c)).isSome = true) :
    ∀ p ∈ boardCells n, (tileFillColor (st.board p.1 p.2)).isSome = true := by
  intro p hp
  rw [boardCells_eq_product] at hp
  obtain ⟨h1, h2⟩ := List.mem_product.mp hp
  exact hvalid p.1 (List.mem_range.mp h1) p.2 (List.mem_range.mp h2)

/-- On a palette-valid board, `draw_board` does not raise. -/
theorem draw_board_not_raised (n : ℕ) (st : GameState)
    (hvalid : ∀ r, r < n → ∀ c, c < n → (tileFillColor (st.board r c)).isSome = true) :
    (draw_board n st).raised = false := by
  show (renderTileLoop st (boardCells n)).2 = false
  rw [renderTileLoop_ok st (boardCells n) (boardCells_valid n st hvalid)]

/-- On a palette-valid board, the render-tile call list of `draw_board` is
the mapped product of the row and column ranges. -/
theorem tileCalls_eq_product (n : ℕ) (st : GameState)
    (hvalid : ∀ r, r < n → ∀ c, c < n → (tileFillColor (st.board r c)).isSome = true) :
    (draw_board n st).tileCalls
      = ((List.range n) ×ˢ (List.range n)).map
          (fun p => (st.board p.1 p.2, p.1, p.2)) := by
  show (renderTileLoop st (boardCells n)).1 = _
  rw [renderTileLoop_ok st (boardCells n) (boardCells_valid n st hvalid),
    boardCells_eq_product]

/-- Membership in the render-tile call list of `draw_board` on a
palette-valid board. -/
theorem mem_tileCalls (n : ℕ) (st : GameState)
    (hvalid : ∀ r, r < n → ∀ c, c < n → (tileFillColor (st.board r c)).isSome = true)
    (v r c : ℕ) :
    (v, r, c) ∈ (draw_board n st).tileCalls ↔
      v = st.board r c ∧ r < n ∧ c < n := by
  rw [tileCalls_eq_product n st hvalid]
  constructor
  · intro h
    obtain ⟨⟨r', c'⟩, hmem, heq⟩ := List.mem_map.mp h
    obtain ⟨h1, h2⟩ := List.mem_product.mp hmem
    simp only [Prod.mk.injEq] at heq
    obtain ⟨hv, hr, hc⟩ := heq
    subst hr; subst hc
    exact ⟨hv.symm, List.mem_range.mp h1, List.mem_range.mp h2⟩
  · rintro ⟨hv, hr, hc⟩
    refine List.mem_map.mpr ⟨(r, c), ?_, by simp [hv]⟩
    exact List.mem_product.mpr ⟨List.mem_range.mpr hr, List.mem_range.mpr hc⟩

/-- On a palette-valid board, the render-tile call list of `draw_board` has
no duplicates. -/
theorem tileCalls_nodup (n : ℕ) (st : GameState)
    (hvalid : ∀ r, r < n → ∀ c, c < n → (tileFillColor (st.board r c)).isSome = true) :
    (draw_board n st).tileCalls.Nodup := by
  rw [tileCalls_eq_product n st hvalid]
  refine List.Nodup.map ?_ (List.Nodup.product (List.nodup_range n) (List.nodup_range n))
  rintro ⟨a1, a2⟩ ⟨b1, b2⟩ h
  simp only [Prod.mk.injEq] at h
  exact Prod.ext h.2.1 h.2.2

/-- Evaluation of the hardcoded tick positions: `arange(-0.5, 3, 1)` is
`[-0.5, 0.5, 1.5, 2.5]` (in half-units `[-1, 1, 3, 5]`). -/
theorem boardTicks_eval : boardTicks = [-1, 1, 3, 5] := by decide

/-- A duplicate-free list counts each of its members exactly once. -/
theorem count_eq_one_of_nodup_mem {α : Type} [BEq α] [LawfulBEq α] {l : List α} {a : α}
    (d : l.Nodup) (h : a ∈ l) : l.count a = 1 := by
  induction l with
  | nil => cases h
  | cons x xs ih =>
    obtain ⟨hx, hxs⟩ := List.nodup_cons.mp d
    rw [List.count_cons]
    rcases List.mem_cons.mp h with rfl | hm
    · rw [List.count_eq_zero.mpr hx]
      simp
    · rw [ih hxs hm]
      have hb : (a == x) = false := beq_eq_false_iff_ne.mpr (fun he => hx (he ▸ hm))
      simp [hb]
      exact fun he => hx (show x ∈ xs from he ▸ hm)

/-- Claim C1 counterexample, in two parts.  First, `draw_board` does not set
the tick positions to the cell boundaries of the configured board: the source
hardcodes `jnp.arange(-0.5, 4 - 1, 1)`, which differs from the boundary
positions both for the default `board_size = 4` (the boundary `3.5` is
missing) and for any other size such as `board_size = 5`.  Second,
`render_tile` is not invoked once for every cell of every state: on a board
of 3s the very first invocation raises a `KeyError` and aborts the loop, so
cell `(1, 1)` is never visited. -/
theorem c1_counterexample :
    ((draw_board 4 ⟨fun _ _ => 0, 0⟩).xticks ≠ cellBoundaries 4 ∧
     (draw_board 5 ⟨fun _ _ => 0, 0⟩).xticks ≠ cellBoundaries 5) ∧
    ((draw_board 2 ⟨fun _ _ => 3, 0⟩).raised = true ∧
     (draw_board 2 ⟨fun _ _ => 3, 0⟩).tileCalls.count (3, 1, 1) = 0) := by
  decide

/-- Claim C1 (amended): for every viewer board size and every state whose
in-range tile values all resolve in the palette (an enumerated key or a value
above 16384), `draw_board` clears the prior axes contents, sets both gridline
tick position lists to the fixed positions `arange(-0.5, 3, 1)
= [-0.5, 0.5, 1.5, 2.5]` (in half-units `[-1, 1, 3, 5]`) independent of the
configured board size, hides the tick marks and labels, and invokes
`render_tile` exactly once for every cell `(row, col)` with
`row < board_size` and `col < board_size`, passing it the tile value
`board[row, col]`, without raising.  (On a board with a non-key value at most
16384 the loop aborts at the first such cell, so later cells are never
visited.) -/
theorem c1_draw_board_amended (n : ℕ) (st : GameState)
    (hvalid : ∀ r, r < n → ∀ c, c < n →
      (tileFillColor (st.board r c)).isSome = true) :
    (draw_board n st).cleared = true ∧
    (draw_board n st).xticks = [-1, 1, 3, 5] ∧
    (draw_board n st).yticks = [-1, 1, 3, 5] ∧
    (draw_board n st).ticksHidden = true ∧
    (draw_board n st).raised = false ∧
    ∀ v r c, (draw_board n st).tileCalls.count (v, r, c)
      = if v = st.board r c ∧ r < n ∧ c < n then 1 else 0 := by
  refine ⟨rfl, boardTicks_eval, boardTicks_eval, rfl,
    draw_board_not_raised n st hvalid, ?_⟩
  intro v r c
  by_cases h : v = st.board r c ∧ r < n ∧ c < n
  · rw [if_pos h]
    exact count_eq_one_of_nodup_mem (tileCalls_nodup n st hvalid)
      ((mem_tileCalls n st hvalid v r c).mpr h)
  · rw [if_neg h]
    exact List.count_eq_zero.mpr (fun hm => h ((mem_tileCalls n st hvalid v r c).mp hm))

/-- Claim C1 witness: the amended theorem applied to a 2 by 2 board of 2s —
fixed ticks, no raise, and exactly one invocation for cell `(1, 1)`. -/
theorem c1_draw_board_amended_witness :
    (draw_board 2 ⟨fun _ _ => 2, 0⟩).xticks = [-1, 1, 3, 5] ∧
    (draw_board 2 ⟨fun _ _ => 2, 0⟩).raised = false ∧
    (draw_board 2 ⟨fun _ _ => 2, 0⟩).tileCalls.count (2, 1, 1) = 1 := by
  obtain ⟨_, hx, _, _, hr, hc⟩ := c1_draw_board_amended 2 ⟨fun _ _ => 2, 0⟩
    (fun r _ c _ => rfl)
  refine ⟨hx, hr, ?_⟩
  rw [hc 2 1 1, if_pos ⟨rfl, by omega, by omega⟩]

/-- Claim C2 counterexample: a tile value that is not an enumerated palette
key does not always fall back to the overflow color; when it is `<= 16384`
the lookup `COLORS[int(tile_value)]` raises a `KeyError` (modelled as
`none`).  This happens at value 6, and even at value `1 = 2 ** 0`, which
satisfies the stated power-of-two invariant. -/
theorem c2_counterexample :
    (6 ∉ enumKeys ∧ render_tile 6 0 0 = none) ∧
    (1 ∉ enumKeys ∧ 1 = 2 ^ 0 ∧ render_tile 1 0 0 = none) := by
  decide

/-- Claim C2 (amended): every tile value greater than 16384 is silently drawn
with the fallback overflow color — in particular every power of two greater
than 16384 — while a value that is not an enumerated palette key and is at
most 16384 makes `render_tile` raise a lookup error instead of drawing. -/
theorem c2_overflow_amended (v row col : ℕ) :
    (16384 < v →
      tileFillColor v = some COLORS_other ∧ ∃ p, render_tile v row col = some p) ∧
    (v ∉ enumKeys → v ≤ 16384 →
      tileFillColor v = none ∧ render_tile v row col = none) := by
  constructor
  · intro h
    have htf : tileFillColor v = some COLORS_other := by
      rw [tileFillColor, if_neg (by omega)]
    refine ⟨htf, ?_⟩
    rw [render_tile, htf]
    exact ⟨_, rfl⟩
  · intro hnk hle
    simp only [enumKeys, List.mem_cons, List.not_mem_nil, or_false, not_or] at hnk
    obtain ⟨h0, h2, h4, h8, h16, h32, h64, h128, h256, h512, h1024, h2048,
      h4096, h8192, h16384⟩ := hnk
    have hc : COLORS v = none := by
      simp only [COLORS, if_neg h0, if_neg h2, if_neg h4, if_neg h8, if_neg h16,
        if_neg h32, if_neg h64, if_neg h128, if_neg h256, if_neg h512,
        if_neg h1024, if_neg h2048, if_neg h4096, if_neg h8192, if_neg h16384]
    have htf : tileFillColor v = none := by rw [tileFillColor, if_pos hle, hc]
    exact ⟨htf, by rw [render_tile, htf]⟩

/-- Claim C2 witness: the amended theorem applied at the overflow value 32768
and at the non-key value 6. -/
theorem c2_overflow_amended_witness :
    (tileFillColor 32768 = some COLORS_other ∧ ∃ p, render_tile 32768 1 2 = some p) ∧
    render_tile 6 1 2 = none :=
  ⟨(c2_overflow_amended 32768 1 2).1 (by omega),
   ((c2_overflow_amended 6 1 2).2 (by decide) (by omega)).2⟩

/-- Modelled from the spec: the claimed label tier of values 2 and 4 (dark
text, largest size). -/
def specTierDarkLarge (v : ℕ) : Prop := v = 2 ∨ v = 4

/-- Modelled from the spec: the claimed label tier of the open interval
`(0, 1024)` minus 2 and 4 (light text, largest size). -/
def specTierLightLarge (v : ℕ) : Prop := 0 < v ∧ v < 1024 ∧ v ≠ 2 ∧ v ≠ 4

/-- Modelled from the spec: the claimed label tier `[1024, 16384)` (light
text, medium size). -/
def specTierLightMedium (v : ℕ) : Prop := 1024 ≤ v ∧ v < 16384

/-- Modelled from the spec: the claimed label tier `[16384, ∞)` (light text,
smallest size). -/
def specTierLightSmall (v : ℕ) : Prop := 16384 ≤ v

/-- The second claimed tier with the interval amended to be half-open at 0:
`[0, 1024)` minus 2 and 4.  This is what the `elif tile_value < 1024` branch
of `render_tile` actually covers. -/
def specTierLightLargeHalfOpen (v : ℕ) : Prop := v < 1024 ∧ v ≠ 2 ∧ v ≠ 4

/-- Claim C3 counterexample: the four claimed tiers are not exhaustive over
the domain `[0, ∞)` — the value 0 belongs to none of them, yet the style
chain of `render_tile` does assign it a style (light text, largest size). -/
theorem c3_counterexample :
    ¬ (specTierDarkLarge 0 ∨ specTierLightLarge 0 ∨
        specTierLightMedium 0 ∨ specTierLightSmall 0) ∧
    tile_label_style 0 = (COLORS_light_text, 30) := by
  constructor
  · simp only [specTierDarkLarge, specTierLightLarge, specTierLightMedium,
      specTierLightSmall]
    omega
  · decide

/-- Claim C3 (amended): with the second tier read as `[0, 1024)` minus
`{2, 4}` (half-open at 0) rather than `(0, 1024)` minus `{2, 4}`, the four
tiers are mutually exclusive and exhaustive over the whole domain of tile
values, and `render_tile` assigns exactly the claimed color and size on each
tier: dark/30 on `{2, 4}`, light/30 on `[0, 1024)` minus `{2, 4}`, light/25
on `[1024, 16384)`, and light/20 on `[16384, ∞)`. -/
theorem c3_tiers_amended (v : ℕ) :
    (specTierDarkLarge v ∨ specTierLightLargeHalfOpen v ∨
      specTierLightMedium v ∨ specTierLightSmall v) ∧
    ¬ (specTierDarkLarge v ∧ specTierLightLargeHalfOpen v) ∧
    ¬ (specTierDarkLarge v ∧ specTierLightMedium v) ∧
    ¬ (specTierDarkLarge v ∧ specTierLightSmall v) ∧
    ¬ (specTierLightLargeHalfOpen v ∧ specTierLightMedium v) ∧
    ¬ (specTierLightLargeHalfOpen v ∧ specTierLightSmall v) ∧
    ¬ (specTierLightMedium v ∧ specTierLightSmall v) ∧
    (specTierDarkLarge v → tile_label_style v = (COLORS_dark_text, 30)) ∧
    (specTierLightLargeHalfOpen v → tile_label_style v = (COLORS_light_text, 30)) ∧
    (specTierLightMedium v → tile_label_style v = (COLORS_light_text, 25)) ∧
    (specTierLightSmall v → tile_label_style v = (COLORS_light_text, 20)) := by
  simp only [specTierDarkLarge, specTierLightLargeHalfOpen, specTierLightMedium,
    specTierLightSmall, tile_label_style]
  refine ⟨by omega, by omega, by omega, by omega, by omega, by omega, by omega,
    ?_, ?_, ?_, ?_⟩
  · intro h
    rw [if_pos h]
  · rintro ⟨h1, h2, h3⟩
    rw [if_neg (by omega), if_pos h1]
  · rintro ⟨h1, h2⟩
    rw [if_neg (by omega), if_neg (by omega), if_pos ⟨h1, h2⟩]
  · intro h
    rw [if_neg (by omega), if_neg (by omega), if_neg (by omega)]

/-- Claim C3 witness: the amended theorem applied at value 2048, which lies
in the medium tier and gets light text at size 25. -/
theorem c3_tiers_amended_witness :
    specTierLightMedium 2048 ∧ tile_label_style 2048 = (COLORS_light_text, 25) := by
  have hm : specTierLightMedium 2048 := by
    simp only [specTierLightMedium]
    omega
  exact ⟨hm, (c3_tiers_amended 2048).2.2.2.2.2.2.2.2.2.1 hm⟩

/-- Claim C4: for every tile value in the enumerated palette key set,
`render_tile` fills the unit-square patch at `(col - 0.5, row - 0.5)` with
exactly the palette color keyed by that value; for every value greater than
16384 it fills the patch with the overflow color `COLORS["other"]`. -/
theorem c4_palette_color (v row col : ℕ) :
    (v ∈ enumKeys → ∃ c texts, COLORS v = some c ∧
      render_tile v row col
        = some (⟨2 * (col : ℤ) - 1, 2 * (row : ℤ) - 1, 2, 2, c⟩, texts)) ∧
    (16384 < v → ∃ texts,
      render_tile v row col
        = some (⟨2 * (col : ℤ) - 1, 2 * (row : ℤ) - 1, 2, 2, COLORS_other⟩, texts)) := by
  constructor
  · intro h
    fin_cases h <;> exact ⟨_, _, rfl, rfl⟩
  · intro h
    have htf : tileFillColor v = some COLORS_other := by
      rw [tileFillColor, if_neg (by omega)]
    rw [render_tile, htf]
    exact ⟨_, rfl⟩

/-- Claim C4 witness: the theorem applied at the palette key 2048 and at the
overflow value 100000. -/
theorem c4_palette_color_witness :
    (∃ c texts, COLORS 2048 = some c ∧
      render_tile 2048 0 1 = some (⟨2 * (1 : ℤ) - 1, 2 * (0 : ℤ) - 1, 2, 2, c⟩, texts)) ∧
    (∃ texts, render_tile 100000 0 1
      = some (⟨2 * (1 : ℤ) - 1, 2 * (0 : ℤ) - 1, 2, 2, COLORS_other⟩, texts)) :=
  ⟨(c4_palette_color 2048 0 1).1 (by decide),
   (c4_palette_color 100000 0 1).2 (by omega)⟩

/-- Claim C5 counterexample: value 12 is nonzero, yet `render_tile` draws no
text label for it — it raises a `KeyError` (modelled as `none`) on the palette
lookup before reaching the label-drawing code. -/
theorem c5_counterexample :
    (12 : ℕ) ≠ 0 ∧ 12 ∉ enumKeys ∧ render_tile 12 0 0 = none := by
  decide

/-- Claim C5 (amended): for every tile value whose palette lookup succeeds
(every enumerated key and every value above 16384), `render_tile` draws no
text label when the value is 0, and exactly one text label otherwise, whose
content is the decimal string of the value, centered (both alignments
`"center"`) at position `(col, row)`. -/
theorem c5_labels_amended (v row col : ℕ) (h : (tileFillColor v).isSome = true) :
    ∃ rect texts, render_tile v row col = some (rect, texts) ∧
      (v = 0 → texts = []) ∧
      (v ≠ 0 → texts = [⟨col, row, toString v, (tile_label_style v).1,
        "center", "center", (tile_label_style v).2, "bold"⟩]) := by
  obtain ⟨fill, hfill⟩ := Option.isSome_iff_exists.mp h
  by_cases h0 : v = 0
  · subst h0
    refine ⟨⟨2 * (col : ℤ) - 1, 2 * (row : ℤ) - 1, 2, 2, fill⟩, [],
      ?_, fun _ => rfl, fun hne => absurd rfl hne⟩
    simp [render_tile, hfill]
  · refine ⟨⟨2 * (col : ℤ) - 1, 2 * (row : ℤ) - 1, 2, 2, fill⟩,
      [⟨col, row, toString v, (tile_label_style v).1, "center", "center",
        (tile_label_style v).2, "bold"⟩],
      ?_, fun he => absurd he h0, fun _ => rfl⟩
    simp [render_tile, hfill, h0]

/-- Claim C5 witness: the amended theorem applied at value 2 in cell
`(row, col) = (1, 3)`: exactly one centered label with content "2". -/
theorem c5_labels_amended_witness :
    ∃ rect texts, render_tile 2 1 3 = some (rect, texts) ∧
      texts = [⟨3, 1, toString 2, (tile_label_style 2).1,
        "center", "center", (tile_label_style 2).2, "bold"⟩] := by
  obtain ⟨rect, texts, h1, _, h3⟩ := c5_labels_amended 2 1 3 (by decide)
  exact ⟨rect, texts, h1, h3 (by decide)⟩

/-- Destructuring a successful `get_fig_ax` call. -/
theorem get_fig_ax_some {reg : Registry} {name : String} {inter : Bool}
    (h : (get_fig_ax reg name inter).1.isSome = true) :
    ∃ fig ax reg', get_fig_ax reg name inter = (some (fig, ax), reg') := by
  obtain ⟨⟨fig, ax⟩, hfa⟩ := Option.isSome_iff_exists.mp h
  exact ⟨fig, ax, (get_fig_ax reg name inter).2, by rw [← hfa]⟩

/-- Evaluation of the `animate_state` callback on a valid in-range frame. -/
theorem animate_state_of_valid (n : ℕ) (states : List GameState) (i : ℕ)
    (hi : i < states.length) (hv : (draw_board n states[i]).raised = false) :
    animate_state n states i
      = .ok (draw_board n states[i], titleFor states[i].score) := by
  simp [animate_state, List.getElem?_eq_getElem hi, hv]

/-- A completed `animate_state` callback run comes from an in-range state,
drew its board, and set the title from its score. -/
theorem animate_state_ok_title (n : ℕ) (states : List GameState) (i : ℕ)
    (d : BoardDrawing) (t : String)
    (hok : animate_state n states i = .ok (d, t)) :
    ∃ st, states[i]? = some st ∧ d = draw_board n st ∧ t = titleFor st.score := by
  rcases hs : states[i]? with _ | st
  · simp only [animate_state, hs] at hok
    exact Except.noConfusion hok
  · simp only [animate_state, hs] at hok
    by_cases hrd : (draw_board n st).raised = true
    · rw [if_pos hrd] at hok
      exact Except.noConfusion hok
    · rw [if_neg hrd] at hok
      injection hok with h2
      obtain ⟨h3, h4⟩ := Prod.mk.injEq .. |>.mp h2
      exact ⟨st, rfl, h3.symm, h4.symm⟩

/-- When no state's board raises, the all-frames check of
`self._animation.save(path)` passes. -/
theorem all_not_raised (n : ℕ) (states : List GameState)
    (hvalid : ∀ s ∈ states, (draw_board n s).raised = false) :
    (states.all fun st => !(draw_board n st).raised) = true := by
  rw [List.all_eq_true]
  intro st hst
  simp [hvalid st hst]

/-- Every `.ok` result of `animate` has the fixed initial title and carries
the `FuncAnimation` built from the input states. -/
theorem animate_ok_shape (n : ℕ) (name : String) (inter : Bool) (reg : Registry)
    (prev : Option FuncAnimation) (states : List GameState) (interval : ℕ)
    (blit save : Bool) (path : String) (r : AnimateResult)
    (hr : animate n name inter reg prev states interval blit save path = .ok r) :
    r.initialTitle = "2048    Score: 0" ∧
    r.animation = ⟨states.length, interval, blit, animate_state n states⟩ := by
  rcases hget : get_fig_ax reg name inter with ⟨o, reg2⟩
  rcases o with _ | ⟨fig, ax⟩
  · simp only [animate, hget] at hr
    exact Except.noConfusion hr
  · simp only [animate, hget] at hr
    cases save
    · rw [if_neg Bool.false_ne_true] at hr
      injection hr with hr'
      subst hr'
      exact ⟨rfl, rfl⟩
    · rw [if_pos rfl] at hr
      by_cases hall : (states.all fun st => !(draw_board n st).raised) = true
      · rw [if_pos hall] at hr
        injection hr with hr'
        subst hr'
        exact ⟨rfl, rfl⟩
      · rw [if_neg hall] at hr
        exact Except.noConfusion hr

/-- Claim C6 counterexample: a state list containing a board of 3s.  With
`save` unset `animate` returns, the frame count is 1, but frame 0's callback
raises inside the board redraw (`KeyError` on the palette lookup) and never
sets the title, contradicting "redraws the board of states[i] and sets the
title from the integer score of states[i]". -/
theorem c6_counterexample :
    ∃ r, animate 2 "c6x" true [] none [⟨fun _ _ => 3, 5⟩] 200 false false
        "./2048.gif" = .ok r ∧
      r.animation.frames = 1 ∧
      r.animation.frameEffects 0 = .error () := by
  exact ⟨_, rfl, rfl, rfl⟩

/-- Claim C6 (amended): for a non-empty list of `N` states, each of whose
boards draws successfully (every in-range tile value resolves in the
palette), and a usable drawing surface, `animate` builds an animation whose
frame count is exactly `N` and whose callback at each frame index `i < N`
redraws the board of `states[i]` and sets the title from the score of
`states[i]`, in input order.  A frame whose board contains a non-key value at
most 16384 instead raises during the redraw and never sets the title. -/
theorem c6_animation_frames_amended (n : ℕ) (name : String) (inter : Bool)
    (reg : Registry) (prev : Option FuncAnimation) (states : List GameState)
    (interval : ℕ) (blit save : Bool) (path : String)
    (_hne : states ≠ [])
    (h : (get_fig_ax reg name inter).1.isSome = true)
    (hvalid : ∀ s ∈ states, (draw_board n s).raised = false) :
    ∃ r, animate n name inter reg prev states interval blit save path = .ok r ∧
      r.animation.frames = states.length ∧
      ∀ i (hi : i < states.length),
        r.animation.frameEffects i
          = .ok (draw_board n states[i], titleFor states[i].score) := by
  obtain ⟨fig, ax, reg', heq⟩ := get_fig_ax_some h
  have hframe : ∀ i (hi : i < states.length),
      animate_state n states i
        = .ok (draw_board n states[i], titleFor states[i].score) :=
    fun i hi => animate_state_of_valid n states i hi
      (hvalid states[i] (List.getElem_mem hi))
  simp only [animate, heq]
  cases save
  · exact ⟨_, rfl, rfl, fun i hi => hframe i hi⟩
  · rw [if_pos rfl, if_pos (all_not_raised n states hvalid)]
    exact ⟨_, rfl, rfl, fun i hi => hframe i hi⟩

/-- Claim C6 witness: the amended theorem applied to a fresh registry and a
concrete two-state sequence of valid boards. -/
theorem c6_animation_frames_amended_witness :
    ∃ r, animate 4 "v" true [] none
        [⟨fun _ _ => 0, 0⟩, ⟨fun _ _ => 2, 4⟩] 200 false false "./2048.gif"
        = .ok r ∧
      r.animation.frames = 2 ∧
      r.animation.frameEffects 1
        = .ok (draw_board 4 ⟨fun _ _ => 2, 4⟩, titleFor 4) := by
  obtain ⟨r, hok, hfr, hcb⟩ := c6_animation_frames_amended 4 "v" true [] none
    [⟨fun _ _ => 0, 0⟩, ⟨fun _ _ => 2, 4⟩] 200 false false "./2048.gif"
    (by simp) rfl
    (by
      intro s hs
      simp only [List.mem_cons, List.not_mem_nil, or_false] at hs
      rcases hs with rfl | rfl <;> rfl)
  exact ⟨r, hok, hfr.trans rfl, hcb 1 (by decide)⟩

/-- Claim C7: `get_fig_ax` is idempotent in the viewer's name.  If a figure
is registered under the name, the call returns that same figure and its first
axes and leaves the registry unchanged; otherwise exactly one new figure is
registered, created with `figsize` 6 by 6, the background facecolor, and axis
ticks/labels disabled, and a repeated call then returns that same figure and
registry, so successive render calls draw on the same surface. -/
theorem c7_fig_reuse (reg : Registry) (name : String) (inter : Bool) :
    (∀ fig a rest, lookupFig name reg = some fig → fig.axes = a :: rest →
      get_fig_ax reg name inter = (some (fig, a), reg)) ∧
    (lookupFig name reg = none →
      ∃ fig, get_fig_ax reg name inter = (some (fig, 0), (name, fig) :: reg) ∧
        fig.figsize = (6, 6) ∧ fig.facecolor = COLORS_bg ∧ fig.axisOff = true ∧
        fig.axes = [0] ∧
        get_fig_ax ((name, fig) :: reg) name inter
          = (some (fig, 0), (name, fig) :: reg)) := by
  constructor
  · intro fig a rest hl hax
    simp [get_fig_ax, hl, hax]
  · intro hl
    refine ⟨⟨(6, 6), COLORS_bg, true, !inter, [0]⟩, ?_, rfl, rfl, rfl, rfl, ?_⟩
    · simp [get_fig_ax, hl]
    · simp [get_fig_ax, lookupFig]

/-- Claim C7 witness: the creation branch applied to the empty registry and
the default name, followed by the reuse of the created figure. -/
theorem c7_fig_reuse_witness :
    ∃ fig, get_fig_ax [] "2048" false = (some (fig, 0), [("2048", fig)]) ∧
      fig.figsize = (6, 6) ∧ fig.facecolor = COLORS_bg ∧ fig.axisOff = true ∧
      fig.axes = [0] ∧
      get_fig_ax [("2048", fig)] "2048" false = (some (fig, 0), [("2048", fig)]) :=
  (c7_fig_reuse [] "2048" false).2 rfl

/-- Claim C8 counterexample: a board of 3s.  `render` with `save = true`
raises inside `draw_board` (`KeyError` on the palette lookup) before ever
reaching `fig.savefig`, so no file is written; likewise `animate` with
`save = true` raises while `self._animation.save(path)` replays the failing
frame, so no file is produced and nothing is returned. -/
theorem c8_counterexample :
    render 2 "c8x" true [] ⟨fun _ _ => 3, 0⟩ true "./2048.png" = .error () ∧
    ∃ e, animate 2 "c8x" true [] none [⟨fun _ _ => 3, 0⟩] 200 false true
      "./2048.gif" = .error e :=
  ⟨rfl, ⟨_, rfl⟩⟩

/-- Claim C8 (amended): with a usable drawing surface and boards that draw
successfully (every in-range tile value resolves in the palette), `render`
writes exactly the file at `path` when `save` is true and no file when
`save` is false, and likewise `animate` writes exactly the serialized
animation at `path` when `save` is true and nothing when false; every other
effect (figure, axes, registry, title, board drawing, display flush,
animation object, stored handle, return value) is identical in the two
cases.  When a board fails the palette lookup, the call raises before the
write, so `save = true` writes no file either. -/
theorem c8_save_flag_amended (n : ℕ) (name : String) (inter : Bool)
    (reg : Registry) (st : GameState) (prev : Option FuncAnimation)
    (states : List GameState) (interval : ℕ) (blit : Bool) (path : String)
    (h : (get_fig_ax reg name inter).1.isSome = true)
    (hst : (draw_board n st).raised = false)
    (hstates : ∀ s ∈ states, (draw_board n s).raised = false) :
    (∃ rt rf, render n name inter reg st true path = .ok rt ∧
      render n name inter reg st false path = .ok rf ∧
      rt.savedFiles = [path] ∧ rf.savedFiles = [] ∧
      rt.fig = rf.fig ∧ rt.axUsed = rf.axUsed ∧ rt.registry = rf.registry ∧
      rt.title = rf.title ∧ rt.boardCmds = rf.boardCmds ∧
      rt.eventLoopSeconds = rf.eventLoopSeconds) ∧
    (∃ ra rb, animate n name inter reg prev states interval blit true path = .ok ra ∧
      animate n name inter reg prev states interval blit false path = .ok rb ∧
      ra.savedFiles = [(path, ra.animation)] ∧ rb.savedFiles = [] ∧
      ra.fig = rb.fig ∧ ra.axUsed = rb.axUsed ∧ ra.registry = rb.registry ∧
      ra.initialTitle = rb.initialTitle ∧ ra.animation = rb.animation ∧
      ra.storedAnimation = rb.storedAnimation ∧ ra.returned = rb.returned) := by
  obtain ⟨fig, ax, reg', heq⟩ := get_fig_ax_some h
  constructor
  · simp only [render, heq, hst]
    exact ⟨_, _, rfl, rfl, rfl, rfl, rfl, rfl, rfl, rfl, rfl, rfl⟩
  · simp only [animate, heq]
    rw [if_pos trivial, if_pos (all_not_raised n states hstates)]
    exact ⟨_, _, rfl, rfl, rfl, rfl, rfl, rfl, rfl, rfl, rfl, rfl, rfl⟩

/-- Claim C8 witness: the amended theorem applied to a fresh registry, a
concrete valid state and a one-state animation sequence. -/
theorem c8_save_flag_amended_witness :
    (∃ rt rf, render 4 "w" true [] ⟨fun _ _ => 2, 4⟩ true "./2048.png" = .ok rt ∧
      render 4 "w" true [] ⟨fun _ _ => 2, 4⟩ false "./2048.png" = .ok rf ∧
      rt.savedFiles = ["./2048.png"] ∧ rf.savedFiles = []) ∧
    (∃ ra rb, animate 4 "w" true [] none [⟨fun _ _ => 2, 4⟩] 200 false true
        "./2048.gif" = .ok ra ∧
      animate 4 "w" true [] none [⟨fun _ _ => 2, 4⟩] 200 false false
        "./2048.gif" = .ok rb ∧
      ra.savedFiles = [("./2048.gif", ra.animation)] ∧ rb.savedFiles = []) := by
  obtain ⟨⟨rt, rf, h1, h2, h3, h4, _⟩, -⟩ :=
    c8_save_flag_amended 4 "w" true [] ⟨fun _ _ => 2, 4⟩ none [⟨fun _ _ => 2, 4⟩]
      200 false "./2048.png" rfl rfl
      (by
        intro s hs
        simp only [List.mem_cons, List.not_mem_nil, or_false] at hs
        subst hs
        rfl)
  obtain ⟨-, ⟨ra, rb, h5, h6, h7, h8, _⟩⟩ :=
    c8_save_flag_amended 4 "w" true [] ⟨fun _ _ => 2, 4⟩ none [⟨fun _ _ => 2, 4⟩]
      200 false "./2048.gif" rfl rfl
      (by
        intro s hs
        simp only [List.mem_cons, List.not_mem_nil, or_false] at hs
        subst hs
        rfl)
  exact ⟨⟨rt, rf, h1, h2, h3, h4⟩, ⟨ra, rb, h5, h6, h7, h8⟩⟩

/-- Claim C9 counterexample: with `save` set and a state list containing a
board of 3s, `self._animation.save(path)` raises while replaying the failing
frame, so `animate` never returns a value to the caller — although the newly
created handle had already been stored on the viewer (the error carries
it). -/
theorem c9_counterexample :
    ∃ a, animate 2 "c9x" true [] none [⟨fun _ _ => 3, 0⟩] 200 false true
      "./2048.gif" = .error (some a) :=
  ⟨_, rfl⟩

/-- Claim C9 (amended): with a usable drawing surface and states whose
boards all draw successfully, every `animate` call stores the newly created
animation handle on the viewer — overwriting whatever handle was stored
before, so the result is independent of the previous handle — returns
exactly that stored handle, and when `save` is set the file written at
`path` serializes exactly that handle before it is returned.  When `save` is
set and some board fails the palette lookup, the save step raises and
`animate` never returns, though the new handle was already stored. -/
theorem c9_animation_handle_amended (n : ℕ) (name : String) (inter : Bool)
    (reg : Registry) (prev : Option FuncAnimation) (states : List GameState)
    (interval : ℕ) (blit save : Bool) (path : String)
    (h : (get_fig_ax reg name inter).1.isSome = true)
    (hvalid : ∀ s ∈ states, (draw_board n s).raised = false) :
    ∃ r, animate n name inter reg prev states interval blit save path = .ok r ∧
      r.storedAnimation = some r.returned ∧
      r.returned = r.animation ∧
      (save = true → r.savedFiles = [(path, r.returned)]) ∧
      (save = false → r.savedFiles = []) ∧
      ∀ prev', animate n name inter reg prev' states interval blit save path
        = .ok r := by
  obtain ⟨fig, ax, reg', heq⟩ := get_fig_ax_some h
  simp only [animate, heq]
  cases save
  · refine ⟨_, rfl, rfl, rfl, ?_, fun _ => rfl, fun _ => rfl⟩
    intro hs
    exact Bool.noConfusion hs
  · rw [if_pos rfl, if_pos (all_not_raised n states hvalid)]
    refine ⟨_, rfl, rfl, rfl, fun _ => rfl, ?_, fun _ => rfl⟩
    intro hs
    exact Bool.noConfusion hs

/-- Claim C9 witness: the amended theorem applied to a valid one-state
sequence with `save` set: the new handle is stored, saved and returned. -/
theorem c9_animation_handle_amended_witness :
    ∃ r, animate 4 "v9" true [] none [⟨fun _ _ => 2, 4⟩] 200 false true
        "./2048.gif" = .ok r ∧
      r.storedAnimation = some r.returned ∧
      r.savedFiles = [("./2048.gif", r.returned)] := by
  obtain ⟨r, hok, hst, _, hsv, _, _⟩ := c9_animation_handle_amended 4 "v9" true
    [] none [⟨fun _ _ => 2, 4⟩] 200 false true "./2048.gif" rfl
    (by
      intro s hs
      simp only [List.mem_cons, List.not_mem_nil, or_false] at hs
      subst hs
      rfl)
  exact ⟨r, hok, hst, hsv rfl⟩

/-- Claim C10: for every call of `animate` that returns, the initial figure
title is the fixed string "2048    Score: 0", whatever the input states (in
particular whatever the score of the first state); and the only other title
effects are those of the frame callbacks: a frame-`i` callback run that
completes sets the title from the score of `states[i]` (a callback that
raises during the board redraw sets no title at all).  A `save = false` call
always returns, since the frame callbacks have not yet run when the handle
is built. -/
theorem c10_initial_title (n : ℕ) (name : String) (inter : Bool)
    (reg : Registry) (prev : Option FuncAnimation) (states : List GameState)
    (interval : ℕ) (blit save : Bool) (path : String)
    (h : (get_fig_ax reg name inter).1.isSome = true) :
    (∀ r, animate n name inter reg prev states interval blit save path = .ok r →
      r.initialTitle = "2048    Score: 0" ∧
      ∀ i d t, r.animation.frameEffects i = .ok (d, t) →
        ∃ st, states[i]? = some st ∧ t = titleFor st.score) ∧
    (save = false →
      ∃ r, animate n name inter reg prev states interval blit save path = .ok r) := by
  constructor
  · intro r hr
    obtain ⟨hti, hanim⟩ :=
      animate_ok_shape n name inter reg prev states interval blit save path r hr
    refine ⟨hti, ?_⟩
    intro i d t hf
    rw [hanim] at hf
    obtain ⟨st, hst, _, ht⟩ := animate_state_ok_title n states i d t hf
    exact ⟨st, hst, ht⟩
  · intro hs
    subst hs
    obtain ⟨fig, ax, reg', heq⟩ := get_fig_ax_some h
    simp only [animate, heq]
    exact ⟨_, rfl⟩

/-- Claim C10 witness: the theorem applied to a one-state sequence whose
state has score 7 — the call returns, the initial title is the fixed string,
and any completed frame-0 callback titles with score 7. -/
theorem c10_initial_title_witness :
    ∃ r, animate 4 "v10" true [] none [⟨fun _ _ => 0, 7⟩] 200 false false
        "./2048.gif" = .ok r ∧
      r.initialTitle = "2048    Score: 0" ∧
      ∀ d t, r.animation.frameEffects 0 = .ok (d, t) → t = titleFor 7 := by
  obtain ⟨hall, hret⟩ := c10_initial_title 4 "v10" true [] none
    [⟨fun _ _ => 0, 7⟩] 200 false false "./2048.gif" rfl
  obtain ⟨r, hok⟩ := hret rfl
  obtain ⟨hti, hframe⟩ := hall r hok
  refine ⟨r, hok, hti, ?_⟩
  intro d t hf
  obtain ⟨st, hst, ht⟩ := hframe 0 d t hf
  injection hst with h'
  subst h'
  exact ht
